import Mathlib

/-!
Verification of the battery charging/discharging simulator (`jeni.py`).

The source is a fixed-step discrete simulation: a chemistry lookup table,
pack totals `total_voltage = voltage * series` and
`total_capacity = capacity * parallel`, and a loop over the time grid
`0, 1, ..., duration` that updates a single SOC state variable, derives a
current and a voltage from the post-update SOC, and appends one sample per
grid point.  SOC, current and time are exact rationals here; the voltage
uses `Real.sqrt` for the `** 0.5` of the charging curve.
-/

namespace Battery

/-- Simulation mode, from the sidebar radio button: a value other than
the charging string is treated as discharging by every branch. -/
inductive Mode
  | Charging
  | Discharging
deriving DecidableEq

/-- One entry of the `battery_types` table. -/
structure Profile where
  voltage : ℚ
  capacity : ℚ
  efficiency : ℚ
deriving DecidableEq

/-- The keys of the `battery_types` table. -/
inductive BatteryName
  | LithiumIon
  | LeadAcid
  | NiMH
  | SolidState
deriving DecidableEq

/-- The static chemistry lookup table (`battery_types` in the source). -/
def battery_types : BatteryName → Profile
  | .LithiumIon => ⟨3.7, 2.5, 0.95⟩
  | .LeadAcid => ⟨2.0, 5.0, 0.85⟩
  | .NiMH => ⟨1.2, 2.0, 0.75⟩
  | .SolidState => ⟨3.8, 3.0, 0.98⟩

/-- `total_voltage = b_config["voltage"] * series_cells`. -/
def total_voltage (p : Profile) (series_cells : ℕ) : ℚ :=
  p.voltage * series_cells

/-- `total_capacity = b_config["capacity"] * parallel_cells`. -/
def total_capacity (p : Profile) (parallel_cells : ℕ) : ℚ :=
  p.capacity * parallel_cells

/-- `time_step = 1.0` seconds. -/
def time_step : ℚ := 1

/-- `c_rate = 0.5`. -/
def c_rate : ℚ := 0.5

/-- `base_current = total_capacity * c_rate`. -/
def base_current (cap : ℚ) : ℚ := cap * c_rate

/-- `delta_soc = (base_current * time_step / 3600) / total_capacity * 100`,
identical in both branches of the loop body. -/
def delta_soc (cap : ℚ) : ℚ :=
  base_current cap * time_step / 3600 / cap * 100

/-- One row of the returned DataFrame. -/
structure Sample where
  time : ℚ
  soc : ℚ
  current : ℚ
  voltage : ℝ

/-- Initial SOC: `0 if sim_mode == "Charging" else 100`. -/
def initSoc : Mode → ℚ
  | .Charging => 0
  | .Discharging => 100

/-- The SOC/current update of one loop iteration: clamp the SOC move and
cut the current to zero at the saturated bound. Returns
(post-update soc, current). -/
def stepState (m : Mode) (cap soc_val : ℚ) : ℚ × ℚ :=
  match m with
  | .Charging =>
      let soc' := min 100 (soc_val + delta_soc cap)
      (soc', if soc' < 100 then base_current cap else 0)
  | .Discharging =>
      let soc' := max 0 (soc_val - delta_soc cap)
      (soc', if 0 < soc' then -(base_current cap) else 0)

/-- Post-update SOC of one loop iteration. -/
def socStep (m : Mode) (cap : ℚ) (soc_val : ℚ) : ℚ :=
  (stepState m cap soc_val).1

/-- The mode-dependent voltage factor computed from the post-update SOC:
`0.85 + 0.15 * (soc/100) ** 0.5` when charging,
`0.75 + 0.25 * (soc/100)` when discharging. -/
noncomputable def voltage_factor : Mode → ℚ → ℝ
  | .Charging, soc_val => 0.85 + 0.15 * Real.sqrt ((soc_val : ℝ) / 100)
  | .Discharging, soc_val => 0.75 + 0.25 * ((soc_val : ℝ) / 100)

/-- The sample appended by one loop iteration at time `t` from pre-update
SOC `soc_val`. -/
noncomputable def loopBody (m : Mode) (tv cap : ℚ) (t : ℚ) (soc_val : ℚ) :
    Sample :=
  { time := t
    soc := (stepState m cap soc_val).1
    current := (stepState m cap soc_val).2
    voltage := (tv : ℝ) * voltage_factor m (stepState m cap soc_val).1 }

/-- The simulation loop over the remaining time grid, threading the SOC
state variable. -/
noncomputable def simulateAux (m : Mode) (tv cap : ℚ) :
    List ℚ → ℚ → List Sample
  | [], _ => []
  | t :: ts, soc_val =>
      loopBody m tv cap t soc_val ::
        simulateAux m tv cap ts (stepState m cap soc_val).1

/-- `np.arange(0, duration + time_step, time_step)` for an integer
duration and unit step: the closed grid `0, 1, ..., duration`. -/
def timeGrid (duration : ℕ) : List ℚ :=
  (List.range (duration + 1)).map (fun k : ℕ => (k : ℚ))

/-- `simulate_battery(sim_mode, duration, speed)`; the pack totals are the
globals `total_voltage` / `total_capacity`, passed here explicitly.  The
`speed` argument is accepted and never read, as in the source. -/
noncomputable def simulate_battery (m : Mode) (duration : ℕ) (speed : ℕ)
    (tv cap : ℚ) : List Sample :=
  simulateAux m tv cap (timeGrid duration) (initSoc m)

/-- A zero sample, used only as the out-of-range default of `sampleAt`. -/
noncomputable def defaultSample : Sample := ⟨0, 0, 0, 0⟩

/-- Row `k` of a trace. -/
noncomputable def sampleAt (tr : List Sample) (k : ℕ) : Sample :=
  tr.getD k defaultSample

/-- The SOC the loop holds before processing grid point `k`. -/
def socPre (m : Mode) (cap : ℚ) (k : ℕ) : ℚ :=
  (socStep m cap)^[k] (initSoc m)

/-- Saturation of the SOC state: full when charging, empty when
discharging. -/
def saturated : Mode → ℚ → Prop
  | .Charging, s => s = 100
  | .Discharging, s => s = 0

/-! ### Basic facts about the step -/

theorem delta_soc_eq {cap : ℚ} (hc : cap ≠ 0) : delta_soc cap = 1 / 72 := by
  unfold delta_soc base_current c_rate time_step
  field_simp
  ring

theorem socStep_charging (cap s : ℚ) :
    socStep .Charging cap s = min 100 (s + delta_soc cap) := rfl

theorem socStep_discharging (cap s : ℚ) :
    socStep .Discharging cap s = max 0 (s - delta_soc cap) := rfl

theorem stepState_fst (m : Mode) (cap s : ℚ) :
    (stepState m cap s).1 = socStep m cap s := rfl

theorem stepState_snd_charging (cap s : ℚ) :
    (stepState .Charging cap s).2 =
      if socStep .Charging cap s < 100 then base_current cap else 0 := rfl

theorem stepState_snd_discharging (cap s : ℚ) :
    (stepState .Discharging cap s).2 =
      if 0 < socStep .Discharging cap s then -(base_current cap) else 0 := rfl

/-! ### The trace, sample by sample -/

theorem simulateAux_length (m : Mode) (tv cap : ℚ) (ts : List ℚ) (s : ℚ) :
    (simulateAux m tv cap ts s).length = ts.length := by
  induction ts generalizing s with
  | nil => rfl
  | cons t ts ih => simp [simulateAux, ih]

theorem timeGrid_length (d : ℕ) : (timeGrid d).length = d + 1 := by
  unfold timeGrid
  rw [List.length_map, List.length_range]

theorem simulate_length (m : Mode) (d sp : ℕ) (tv cap : ℚ) :
    (simulate_battery m d sp tv cap).length = d + 1 := by
  unfold simulate_battery
  rw [simulateAux_length, timeGrid_length]

theorem sampleAt_simulateAux (m : Mode) (tv cap : ℚ) :
    ∀ (ts : List ℚ) (s : ℚ) (k : ℕ), k < ts.length →
      sampleAt (simulateAux m tv cap ts s) k =
        loopBody m tv cap (ts.getD k 0) ((socStep m cap)^[k] s) := by
  intro ts
  induction ts with
  | nil => intro s k hk; simp at hk
  | cons t ts ih =>
      intro s k hk
      cases k with
      | zero => simp [simulateAux, sampleAt]
      | succ k =>
          have hk' : k < ts.length := by simpa using hk
          simp only [simulateAux, sampleAt, List.getD_cons_succ]
          rw [show (simulateAux m tv cap ts (stepState m cap s).1).getD k
                defaultSample =
              sampleAt (simulateAux m tv cap ts (stepState m cap s).1) k
              from rfl]
          rw [ih ((stepState m cap s).1) k hk']
          rw [Function.iterate_succ_apply]
          rfl

theorem timeGrid_getD (d k : ℕ) (hk : k < d + 1) :
    (timeGrid d).getD k 0 = (k : ℚ) := by
  have hlen : k < (timeGrid d).length := by rw [timeGrid_length]; omega
  rw [List.getD_eq_getElem _ _ hlen]
  simp only [timeGrid, List.getElem_map, List.getElem_range]

theorem sampleAt_simulate (m : Mode) (d sp : ℕ) (tv cap : ℚ) (k : ℕ)
    (hk : k < d + 1) :
    sampleAt (simulate_battery m d sp tv cap) k =
      loopBody m tv cap (k : ℚ) (socPre m cap k) := by
  unfold simulate_battery socPre
  rw [sampleAt_simulateAux m tv cap (timeGrid d) (initSoc m) k
    (by rw [timeGrid_length]; omega)]
  rw [timeGrid_getD d k hk]

theorem sample_time (m : Mode) (d sp : ℕ) (tv cap : ℚ) (k : ℕ)
    (hk : k < d + 1) :
    (sampleAt (simulate_battery m d sp tv cap) k).time = (k : ℚ) := by
  rw [sampleAt_simulate m d sp tv cap k hk]; rfl

theorem sample_soc (m : Mode) (d sp : ℕ) (tv cap : ℚ) (k : ℕ)
    (hk : k < d + 1) :
    (sampleAt (simulate_battery m d sp tv cap) k).soc =
      socPre m cap (k + 1) := by
  rw [sampleAt_simulate m d sp tv cap k hk]
  show (stepState m cap (socPre m cap k)).1 = socPre m cap (k + 1)
  rw [stepState_fst]
  unfold socPre
  rw [Function.iterate_succ_apply']

theorem sample_current (m : Mode) (d sp : ℕ) (tv cap : ℚ) (k : ℕ)
    (hk : k < d + 1) :
    (sampleAt (simulate_battery m d sp tv cap) k).current =
      (stepState m cap (socPre m cap k)).2 := by
  rw [sampleAt_simulate m d sp tv cap k hk]
  rfl

theorem sample_voltage (m : Mode) (d sp : ℕ) (tv cap : ℚ) (k : ℕ)
    (hk : k < d + 1) :
    (sampleAt (simulate_battery m d sp tv cap) k).voltage =
      (tv : ℝ) * voltage_factor m (socPre m cap (k + 1)) := by
  rw [sampleAt_simulate m d sp tv cap k hk]
  show (tv : ℝ) * voltage_factor m (stepState m cap (socPre m cap k)).1 = _
  rw [stepState_fst]
  unfold socPre
  rw [Function.iterate_succ_apply']

/-! ### Closed form of the SOC sequence -/

theorem min_clamp_shift (x d : ℚ) (hd : 0 ≤ d) :
    min 100 (min 100 x + d) = min 100 (x + d) := by
  rcases le_total 100 x with h | h
  · rw [min_eq_left h, min_eq_left (by linarith), min_eq_left (by linarith)]
  · rw [min_eq_right h]

theorem max_clamp_shift (x d : ℚ) (hd : 0 ≤ d) :
    max 0 (max 0 x - d) = max 0 (x - d) := by
  rcases le_total x 0 with h | h
  · rw [max_eq_left h, max_eq_left (by linarith), max_eq_left (by linarith)]
  · rw [max_eq_right h]

theorem socPre_charging {cap : ℚ} (hc : cap ≠ 0) (k : ℕ) :
    socPre .Charging cap k = min 100 ((k : ℚ) / 72) := by
  induction k with
  | zero =>
      show initSoc .Charging = min 100 ((0 : ℚ) / 72)
      norm_num [initSoc]
  | succ k ih =>
      unfold socPre at ih ⊢
      rw [Function.iterate_succ_apply', ih, socStep_charging,
        delta_soc_eq hc, min_clamp_shift _ _ (by norm_num)]
      congr 1
      push_cast
      ring

theorem socPre_discharging {cap : ℚ} (hc : cap ≠ 0) (k : ℕ) :
    socPre .Discharging cap k = max 0 (100 - (k : ℚ) / 72) := by
  induction k with
  | zero =>
      show initSoc .Discharging = max 0 (100 - (0 : ℚ) / 72)
      norm_num [initSoc]
  | succ k ih =>
      unfold socPre at ih ⊢
      rw [Function.iterate_succ_apply', ih, socStep_discharging,
        delta_soc_eq hc, max_clamp_shift _ _ (by norm_num)]
      congr 1
      push_cast
      ring

theorem socPre_nonneg {cap : ℚ} (hc : cap ≠ 0) (m : Mode) (k : ℕ) :
    0 ≤ socPre m cap k := by
  cases m
  · rw [socPre_charging hc]
    exact le_min (by norm_num) (by positivity)
  · rw [socPre_discharging hc]
    exact le_max_left 0 _

theorem socPre_le_100 {cap : ℚ} (hc : cap ≠ 0) (m : Mode) (k : ℕ) :
    socPre m cap k ≤ 100 := by
  cases m
  · rw [socPre_charging hc]
    exact min_le_left 100 _
  · rw [socPre_discharging hc]
    refine max_le (by norm_num) ?_
    have h : 0 ≤ (k : ℚ) / 72 := by positivity
    linarith

/-! ### Claims -/

/-- C2: for every valid configuration (integer duration ≥ 1), the trace
has length `duration + 1`, its time values are strictly increasing at
1-second steps, the first sample has time 0 and the last has time
`duration`. -/
theorem claim_C2 (m : Mode) (d sp : ℕ) (tv cap : ℚ) (hd : 1 ≤ d) :
    (simulate_battery m d sp tv cap).length = d + 1 ∧
    (∀ k, k < d + 1 →
      (sampleAt (simulate_battery m d sp tv cap) k).time = (k : ℚ)) ∧
    (sampleAt (simulate_battery m d sp tv cap) 0).time = 0 ∧
    (sampleAt (simulate_battery m d sp tv cap) d).time = (d : ℚ) ∧
    (∀ k, k < d →
      (sampleAt (simulate_battery m d sp tv cap) k).time <
        (sampleAt (simulate_battery m d sp tv cap) (k + 1)).time ∧
      (sampleAt (simulate_battery m d sp tv cap) (k + 1)).time =
        (sampleAt (simulate_battery m d sp tv cap) k).time + 1) := by
  refine ⟨simulate_length m d sp tv cap, ?_, ?_, ?_, ?_⟩
  · intro k hk
    exact sample_time m d sp tv cap k hk
  · rw [sample_time m d sp tv cap 0 (by omega)]
    norm_num
  · exact sample_time m d sp tv cap d (by omega)
  · intro k hk
    rw [sample_time m d sp tv cap k (by omega),
      sample_time m d sp tv cap (k + 1) (by omega)]
    constructor
    · exact_mod_cast Nat.lt_succ_self k
    · push_cast
      ring

/-- Witness for C2 at the default configuration. -/
theorem claim_C2_witness :
    1 ≤ 60 ∧
      (simulate_battery Mode.Charging 60 1 (37/10) (5/2)).length = 60 + 1 :=
  ⟨by norm_num, (claim_C2 Mode.Charging 60 1 (37/10) (5/2) (by norm_num)).1⟩

/-- C3: for every valid configuration, every sample of the trace has
`0 ≤ soc ≤ 100` — the clamping invariant holds at every step in both
modes. -/
theorem claim_C3 (m : Mode) (d sp : ℕ) (tv cap : ℚ) (hcap : 0 < cap)
    (k : ℕ) (hk : k < d + 1) :
    0 ≤ (sampleAt (simulate_battery m d sp tv cap) k).soc ∧
      (sampleAt (simulate_battery m d sp tv cap) k).soc ≤ 100 := by
  rw [sample_soc m d sp tv cap k hk]
  exact ⟨socPre_nonneg (ne_of_gt hcap) m (k + 1),
    socPre_le_100 (ne_of_gt hcap) m (k + 1)⟩

/-- Witness for C3. -/
theorem claim_C3_witness :
    (0 : ℚ) < 5/2 ∧ (0 : ℕ) < 60 + 1 ∧
      (0 ≤ (sampleAt (simulate_battery Mode.Discharging 60 1 (37/10) (5/2))
          60).soc ∧
        (sampleAt (simulate_battery Mode.Discharging 60 1 (37/10) (5/2))
          60).soc ≤ 100) :=
  ⟨by norm_num, by norm_num,
    claim_C3 Mode.Discharging 60 1 (37/10) (5/2) (by norm_num) 60
      (by norm_num)⟩

/-- C4: for every valid configuration, the SOC column is non-decreasing
from one sample to the next in Charging mode and non-increasing in
Discharging mode. -/
theorem claim_C4 (m : Mode) (d sp : ℕ) (tv cap : ℚ) (hcap : 0 < cap)
    (k : ℕ) (hk : k + 1 < d + 1) :
    (m = Mode.Charging →
      (sampleAt (simulate_battery m d sp tv cap) k).soc ≤
        (sampleAt (simulate_battery m d sp tv cap) (k + 1)).soc) ∧
    (m = Mode.Discharging →
      (sampleAt (simulate_battery m d sp tv cap) (k + 1)).soc ≤
        (sampleAt (simulate_battery m d sp tv cap) k).soc) := by
  have hc : cap ≠ 0 := ne_of_gt hcap
  rw [sample_soc m d sp tv cap k (by omega),
    sample_soc m d sp tv cap (k + 1) hk]
  have hstep : ((k + 1 : ℕ) : ℚ) / 72 ≤ ((k + 1 + 1 : ℕ) : ℚ) / 72 := by
    apply div_le_div_of_nonneg_right ?_ (by norm_num)
    push_cast
    linarith
  constructor
  · rintro rfl
    rw [socPre_charging hc, socPre_charging hc]
    exact min_le_min le_rfl hstep
  · rintro rfl
    rw [socPre_discharging hc, socPre_discharging hc]
    exact max_le_max le_rfl (by linarith)

/-- Witness for C4. -/
theorem claim_C4_witness :
    (0 : ℚ) < 5/2 ∧ 0 + 1 < 60 + 1 ∧
      (sampleAt (simulate_battery Mode.Charging 60 1 (37/10) (5/2)) 0).soc ≤
        (sampleAt (simulate_battery Mode.Charging 60 1 (37/10) (5/2))
          (0 + 1)).soc :=
  ⟨by norm_num, by norm_num,
    (claim_C4 Mode.Charging 60 1 (37/10) (5/2) (by norm_num) 0
      (by norm_num)).1 rfl⟩

/-- C10: the `speed` argument has no effect on the returned trace — for
any two speed values the traces (all columns) are identical. -/
theorem claim_C10 (m : Mode) (d sp₁ sp₂ : ℕ) (tv cap : ℚ) :
    simulate_battery m d sp₁ tv cap = simulate_battery m d sp₂ tv cap :=
  rfl

/-- C1 counterexample: the claim says the t=0 sample of a charging run
carries the initial SOC 0; in the code the loop body updates the SOC
before appending, so at the scenario-3 configuration (total voltage 3.6,
total capacity 4, duration 10) the first sample's SOC is not 0. -/
theorem claim_C1_counterexample :
    (sampleAt (simulate_battery Mode.Charging 10 1 (18/5) 4) 0).soc ≠ 0 := by
  rw [sample_soc Mode.Charging 10 1 (18/5) 4 0 (by norm_num),
    socPre_charging (by norm_num) 1]
  norm_num [min_def]

/-- C1 (amended): the first sample of the trace reflects one applied SOC
update, not the initial state: at time 0 the SOC is `delta_soc = 1/72`
when charging and `100 - 1/72` when discharging, and the t=0 voltage uses
that post-update SOC. -/
theorem claim_C1_amended (tv cap : ℚ) (d sp : ℕ) (hcap : 0 < cap) :
    (sampleAt (simulate_battery Mode.Charging d sp tv cap) 0).time = 0 ∧
    (sampleAt (simulate_battery Mode.Charging d sp tv cap) 0).soc = 1/72 ∧
    (sampleAt (simulate_battery Mode.Discharging d sp tv cap) 0).soc =
      100 - 1/72 ∧
    (sampleAt (simulate_battery Mode.Charging d sp tv cap) 0).voltage =
      (tv : ℝ) * voltage_factor Mode.Charging (1/72) ∧
    (sampleAt (simulate_battery Mode.Discharging d sp tv cap) 0).voltage =
      (tv : ℝ) * voltage_factor Mode.Discharging (100 - 1/72) := by
  have hc : cap ≠ 0 := ne_of_gt hcap
  have hch : socPre Mode.Charging cap 1 = 1/72 := by
    rw [socPre_charging hc]
    norm_num [min_def]
  have hdis : socPre Mode.Discharging cap 1 = 100 - 1/72 := by
    rw [socPre_discharging hc]
    norm_num [max_def]
  refine ⟨?_, ?_, ?_, ?_, ?_⟩
  · rw [sample_time Mode.Charging d sp tv cap 0 (by omega)]
    norm_num
  · rw [sample_soc Mode.Charging d sp tv cap 0 (by omega), hch]
  · rw [sample_soc Mode.Discharging d sp tv cap 0 (by omega), hdis]
  · rw [sample_voltage Mode.Charging d sp tv cap 0 (by omega), hch]
  · rw [sample_voltage Mode.Discharging d sp tv cap 0 (by omega), hdis]

/-- Witness for the amended C1. -/
theorem claim_C1_witness :
    (0 : ℚ) < 4 ∧
      (sampleAt (simulate_battery Mode.Charging 10 1 (18/5) 4) 0).soc =
        1/72 :=
  ⟨by norm_num, (claim_C1_amended (18/5) 4 10 1 (by norm_num)).2.1⟩

/-- C5: once a sample's SOC is saturated (100 charging, 0 discharging),
that sample and every later sample carry zero current, and the engine
still emits the full `duration + 1` samples rather than stopping early. -/
theorem claim_C5 (m : Mode) (d sp : ℕ) (tv cap : ℚ) (hcap : 0 < cap)
    (k j : ℕ) (hkj : k ≤ j) (hj : j < d + 1)
    (hsat : saturated m
      ((sampleAt (simulate_battery m d sp tv cap) k).soc)) :
    (sampleAt (simulate_battery m d sp tv cap) j).current = 0 ∧
      (simulate_battery m d sp tv cap).length = d + 1 := by
  have hc : cap ≠ 0 := ne_of_gt hcap
  have hk : k < d + 1 := lt_of_le_of_lt hkj hj
  have hmono : ((k + 1 : ℕ) : ℚ) / 72 ≤ ((j + 1 : ℕ) : ℚ) / 72 := by
    apply div_le_div_of_nonneg_right ?_ (by norm_num)
    exact_mod_cast Nat.succ_le_succ hkj
  refine ⟨?_, simulate_length m d sp tv cap⟩
  rw [sample_current m d sp tv cap j hj]
  have hiter : (stepState m cap (socPre m cap j)).1 = socPre m cap (j + 1) := by
    rw [stepState_fst]
    unfold socPre
    rw [Function.iterate_succ_apply']
  cases m with
  | Charging =>
      have hsat' : (sampleAt (simulate_battery Mode.Charging d sp tv cap)
          k).soc = 100 := hsat
      rw [sample_soc Mode.Charging d sp tv cap k hk,
        socPre_charging hc] at hsat'
      have hfull : (100 : ℚ) ≤ ((k + 1 : ℕ) : ℚ) / 72 :=
        min_eq_left_iff.mp hsat'
      have hj100 : socPre Mode.Charging cap (j + 1) = 100 := by
        rw [socPre_charging hc]
        exact min_eq_left (le_trans hfull hmono)
      rw [stepState_snd_charging]
      rw [show socStep Mode.Charging cap (socPre Mode.Charging cap j) =
          socPre Mode.Charging cap (j + 1) from hiter, hj100]
      norm_num
  | Discharging =>
      have hsat' : (sampleAt (simulate_battery Mode.Discharging d sp tv cap)
          k).soc = 0 := hsat
      rw [sample_soc Mode.Discharging d sp tv cap k hk,
        socPre_discharging hc] at hsat'
      have hempty : 100 - ((k + 1 : ℕ) : ℚ) / 72 ≤ 0 :=
        max_eq_left_iff.mp hsat'
      have hj0 : socPre Mode.Discharging cap (j + 1) = 0 := by
        rw [socPre_discharging hc]
        exact max_eq_left (by linarith)
      rw [stepState_snd_discharging]
      rw [show socStep Mode.Discharging cap (socPre Mode.Discharging cap j) =
          socPre Mode.Discharging cap (j + 1) from hiter, hj0]
      norm_num

/-- Witness for C5: with duration 7200 the charging run saturates at
sample 7199, and the final sample still exists and carries zero
current. -/
theorem claim_C5_witness :
    saturated Mode.Charging
      ((sampleAt (simulate_battery Mode.Charging 7200 1 (37/10) (5/2))
        7199).soc) ∧
    (sampleAt (simulate_battery Mode.Charging 7200 1 (37/10) (5/2))
      7200).current = 0 := by
  have hsat : saturated Mode.Charging
      ((sampleAt (simulate_battery Mode.Charging 7200 1 (37/10) (5/2))
        7199).soc) := by
    show (sampleAt (simulate_battery Mode.Charging 7200 1 (37/10) (5/2))
      7199).soc = 100
    rw [sample_soc Mode.Charging 7200 1 (37/10) (5/2) 7199 (by norm_num),
      socPre_charging (by norm_num) 7200]
    norm_num
  exact ⟨hsat,
    (claim_C5 Mode.Charging 7200 1 (37/10) (5/2) (by norm_num) 7199 7200
      (by norm_num) (by norm_num) hsat).1⟩

/-- C6: every sample's voltage is `total_voltage * voltage_factor` with
the factor computed from that sample's post-update SOC:
`0.85 + 0.15 * sqrt (soc/100)` when charging,
`0.75 + 0.25 * (soc/100)` when discharging. -/
theorem claim_C6 (m : Mode) (d sp : ℕ) (tv cap : ℚ) (k : ℕ)
    (hk : k < d + 1) :
    (m = Mode.Charging →
      (sampleAt (simulate_battery m d sp tv cap) k).voltage =
        (tv : ℝ) * (0.85 + 0.15 * Real.sqrt
          (((sampleAt (simulate_battery m d sp tv cap) k).soc : ℝ) / 100))) ∧
    (m = Mode.Discharging →
      (sampleAt (simulate_battery m d sp tv cap) k).voltage =
        (tv : ℝ) * (0.75 + 0.25 *
          (((sampleAt (simulate_battery m d sp tv cap) k).soc : ℝ) / 100))) := by
  constructor
  · rintro rfl
    rw [sample_voltage Mode.Charging d sp tv cap k hk,
      sample_soc Mode.Charging d sp tv cap k hk]
    rfl
  · rintro rfl
    rw [sample_voltage Mode.Discharging d sp tv cap k hk,
      sample_soc Mode.Discharging d sp tv cap k hk]
    rfl

/-- Witness for C6 at the discharging default configuration. -/
theorem claim_C6_witness :
    (0 : ℕ) < 60 + 1 ∧
      (sampleAt (simulate_battery Mode.Discharging 60 1 (37/10) (5/2))
          0).voltage =
        ((37/10 : ℚ) : ℝ) * (0.75 + 0.25 *
          (((sampleAt (simulate_battery Mode.Discharging 60 1 (37/10) (5/2))
            0).soc : ℝ) / 100)) :=
  ⟨by norm_num,
    (claim_C6 Mode.Discharging 60 1 (37/10) (5/2) 0 (by norm_num)).2 rfl⟩

/-- C7 counterexample: in scenario 1 (Lithium-Ion, 1s1p, 60 s, charging)
the claim puts the t=60 SOC near 0.833 %; the code applies 61 updates by
t=60, giving 61/72 ≈ 0.847 %, more than 0.01 away from 0.833. -/
theorem claim_C7_counterexample :
    1/100 < |(sampleAt (simulate_battery Mode.Charging 60 1 (37/10) (5/2))
      60).soc - 833/1000| := by
  rw [sample_soc Mode.Charging 60 1 (37/10) (5/2) 60 (by norm_num),
    socPre_charging (by norm_num) 61]
  have h1 : min (100 : ℚ) (((61 : ℕ) : ℚ) / 72) = 61/72 := by
    norm_num [min_def]
  rw [h1, abs_of_pos (by norm_num)]
  norm_num

/-- C7 (amended): Lithium-Ion, series 1, parallel 1, duration 60,
charging: `total_voltage = 3.7`, `total_capacity = 2.5`,
`base_current = 1.25`, `delta_soc ≈ 0.01389` per step, and the sample at
time 60 has SOC `61/72 ≈ 0.847` % (one update per grid point, the t=0
point included, so 61 updates by t=60). -/
theorem claim_C7_amended :
    total_voltage (battery_types BatteryName.LithiumIon) 1 = 37/10 ∧
    total_capacity (battery_types BatteryName.LithiumIon) 1 = 5/2 ∧
    base_current (total_capacity (battery_types BatteryName.LithiumIon) 1) =
      5/4 ∧
    |delta_soc (total_capacity (battery_types BatteryName.LithiumIon) 1) -
      1389/100000| < 1/100000 ∧
    (sampleAt (simulate_battery Mode.Charging 60 1
        (total_voltage (battery_types BatteryName.LithiumIon) 1)
        (total_capacity (battery_types BatteryName.LithiumIon) 1))
      60).soc = 61/72 := by
  have hcap : total_capacity (battery_types BatteryName.LithiumIon) 1 = 5/2 := by
    norm_num [total_capacity, battery_types]
  refine ⟨?_, hcap, ?_, ?_, ?_⟩
  · norm_num [total_voltage, battery_types]
  · rw [hcap]
    norm_num [base_current, c_rate]
  · rw [hcap, delta_soc_eq (by norm_num)]
    rw [abs_of_neg (by norm_num)]
    norm_num
  · rw [sample_soc Mode.Charging 60 1 _ _ 60 (by norm_num),
      socPre_charging (by rw [hcap]; norm_num) 61]
    norm_num [min_def]

/-- C8: the resolver multiplies the chemistry profile's nominal values by
the series/parallel counts, over exactly the four tabulated chemistries,
and both totals are strictly positive for positive counts. -/
theorem claim_C8 :
    battery_types BatteryName.LithiumIon = ⟨37/10, 5/2, 19/20⟩ ∧
    battery_types BatteryName.LeadAcid = ⟨2, 5, 17/20⟩ ∧
    battery_types BatteryName.NiMH = ⟨6/5, 2, 3/4⟩ ∧
    battery_types BatteryName.SolidState = ⟨19/5, 3, 49/50⟩ ∧
    (∀ (n : BatteryName) (s p : ℕ),
      total_voltage (battery_types n) s = (battery_types n).voltage * s ∧
      total_capacity (battery_types n) p = (battery_types n).capacity * p) ∧
    (∀ (n : BatteryName) (s p : ℕ), 0 < s → 0 < p →
      0 < total_voltage (battery_types n) s ∧
      0 < total_capacity (battery_types n) p) := by
  refine ⟨by simp only [battery_types, Profile.mk.injEq]; norm_num,
    by simp only [battery_types, Profile.mk.injEq]; norm_num,
    by simp only [battery_types, Profile.mk.injEq]; norm_num,
    by simp only [battery_types, Profile.mk.injEq]; norm_num,
    fun n s p => ⟨rfl, rfl⟩, fun n s p hs hp => ?_⟩
  have hs' : (0 : ℚ) < s := by exact_mod_cast hs
  have hp' : (0 : ℚ) < p := by exact_mod_cast hp
  unfold total_voltage total_capacity
  cases n <;>
    exact ⟨mul_pos (by norm_num [battery_types]) hs',
      mul_pos (by norm_num [battery_types]) hp'⟩

/-- Witness for C8: positivity of the NiMH 3s2p pack totals. -/
theorem claim_C8_witness :
    (0 : ℕ) < 3 ∧ (0 : ℕ) < 2 ∧
      0 < total_voltage (battery_types BatteryName.NiMH) 3 ∧
      0 < total_capacity (battery_types BatteryName.NiMH) 2 :=
  ⟨by norm_num, by norm_num,
    (claim_C8.2.2.2.2.2 BatteryName.NiMH 3 2 (by norm_num) (by norm_num)).1,
    (claim_C8.2.2.2.2.2 BatteryName.NiMH 3 2 (by norm_num) (by norm_num)).2⟩

theorem socStep_eq_of_delta {cap cap' : ℚ}
    (h : delta_soc cap = delta_soc cap') (m : Mode) (s : ℚ) :
    socStep m cap s = socStep m cap' s := by
  cases m <;> simp [socStep, stepState, h]

theorem simulateAux_map_soc (m : Mode) (tv tv' cap cap' : ℚ)
    (h : delta_soc cap = delta_soc cap') :
    ∀ (ts : List ℚ) (s : ℚ),
      (simulateAux m tv cap ts s).map Sample.soc =
        (simulateAux m tv' cap' ts s).map Sample.soc := by
  intro ts
  induction ts with
  | nil => intro s; rfl
  | cons t ts ih =>
      intro s
      have h1 : (loopBody m tv cap t s).soc = (loopBody m tv' cap' t s).soc :=
        socStep_eq_of_delta h m s
      have h2 : (stepState m cap s).1 = (stepState m cap' s).1 :=
        socStep_eq_of_delta h m s
      simp only [simulateAux, List.map_cons]
      rw [h1, h2, ih ((stepState m cap' s).1)]

/-- C9: for positive capacity the per-step SOC change is
`c_rate * time_step / 3600 * 100 = 1/72` percent, independent of the
capacity, so the SOC column of the trace is identical across all positive
pack capacities and voltages. -/
theorem claim_C9 :
    (∀ cap : ℚ, 0 < cap →
      delta_soc cap = c_rate * time_step / 3600 * 100 ∧
      delta_soc cap = 1/72) ∧
    (∀ (m : Mode) (d sp : ℕ) (tv tv' cap cap' : ℚ), 0 < cap → 0 < cap' →
      (simulate_battery m d sp tv cap).map Sample.soc =
        (simulate_battery m d sp tv' cap').map Sample.soc) := by
  constructor
  · intro cap hcap
    rw [delta_soc_eq (ne_of_gt hcap)]
    norm_num [c_rate, time_step]
  · intro m d sp tv tv' cap cap' hcap hcap'
    unfold simulate_battery
    exact simulateAux_map_soc m tv tv' cap cap'
      (by rw [delta_soc_eq (ne_of_gt hcap), delta_soc_eq (ne_of_gt hcap')])
      (timeGrid d) (initSoc m)

/-- Witness for C9 at two different pack configurations. -/
theorem claim_C9_witness :
    delta_soc (5/2) = 1/72 ∧
      (simulate_battery Mode.Discharging 10 1 (37/10) (5/2)).map Sample.soc =
        (simulate_battery Mode.Discharging 10 1 2 7).map Sample.soc :=
  ⟨(claim_C9.1 (5/2) (by norm_num)).2,
    claim_C9.2 Mode.Discharging 10 1 (37/10) 2 (5/2) 7 (by norm_num)
      (by norm_num)⟩

end Battery
